import Mathlib

/-!
# fieldcam_graphics: touch button and field-vector glyphs

A shallow embedding of `src/field_camera/fieldcam_graphics.cpp` (declarations in
`src/tools/calibrate_field_camera/fieldcam_graphics.h`).

* `int` is the 32-bit two's-complement integer of the boards the display
  library runs on; every `int` operation is followed by `wrapInt`, so a result that leaves the `int` range
  wraps around (C++ leaves that case undefined; theorems that depend on a
  result being exact carry the hypothesis that it fits).
* `millis()` is an `unsigned long` of 32 bits: a `Nat` below `2^32`, with
  subtraction modulo `2^32`.
* The display `TFT_eSPI *tft` is modelled by the list of calls made on it.
-/

namespace Fieldcam

/-! ## Machine integers -/

/-- Smallest `int`. -/
def INT_MIN : Int := -2147483648

/-- Largest `int`. -/
def INT_MAX : Int := 2147483647

/-- Modulus of the 32-bit unsigned types (`unsigned long`, `uint32_t`). -/
def U32_MOD : Nat := 4294967296

/-- The value lies in the range of `int`. -/
def fitsInt (v : Int) : Prop := INT_MIN ≤ v ∧ v ≤ INT_MAX

instance (v : Int) : Decidable (fitsInt v) := by
  unfold fitsInt; exact inferInstance

/-- Reduction of a mathematical integer to the `int` it is stored as. -/
def wrapInt (v : Int) : Int := (v + 2147483648) % 4294967296 - 2147483648

/-- `a + b` on `int`. -/
def iadd (a b : Int) : Int := wrapInt (a + b)

/-- `a - b` on `int`. -/
def isub (a b : Int) : Int := wrapInt (a - b)

/-- `a * b` on `int`. -/
def imul (a b : Int) : Int := wrapInt (a * b)

/-- `a / b` on `int`: the quotient truncated toward zero. -/
def idiv (a b : Int) : Int := wrapInt (Int.tdiv a b)

/-- Unary `-a` on `int`. -/
def ineg (a : Int) : Int := wrapInt (-a)

/-- Conversion `int → unsigned long` (value modulo `2^32`). -/
def toU32 (v : Int) : Nat := (v % 4294967296).toNat

/-- Conversion `unsigned long → int` (two's complement reinterpretation). -/
def toI32 (n : Nat) : Int := wrapInt (n : Int)

/-- `a - b` on `unsigned long`. -/
def usub (a b : Nat) : Nat := (a % U32_MOD + U32_MOD - b % U32_MOD) % U32_MOD

/-! ## The display as a trace of calls -/

/-- One call on the `TFT_eSPI` display object. -/
inductive DrawCmd where
  | fillRect (x y w h : Int) (color : Nat)
  | drawRect (x y w h : Int) (color : Nat)
  | setTextDatum (datum : Nat)
  | setTextColor (color : Nat)
  | setTextFont (font : Nat)
  | drawString (text : String) (x y : Int)
  | drawCircle (x y r : Int) (color : Nat)
  | fillCircle (x y r : Int) (color : Nat)
  | drawLine (x0 y0 x1 y1 : Int) (color : Nat)
  deriving DecidableEq, Repr

/-! ## Button -/

/-- Fields of `class Button` (the display pointer is the trace). -/
structure Button where
  x : Int
  y : Int
  dx : Int
  dy : Int
  bgcolor : Nat
  fgcolor : Nat
  last_touch : Int
  selected : Bool
  text : String
  deriving DecidableEq, Repr

/-- Constructor `Button::Button`; `now` is the value `millis()` returns. -/
def Button.ctor (settext : String) (setx sety setdx setdy : Int)
    (setbgcolor setfgcolor : Nat) (setselected : Bool) (now : Nat) : Button :=
  { text := settext, x := setx, y := sety, dx := setdx, dy := setdy,
    bgcolor := setbgcolor, fgcolor := setfgcolor, selected := setselected,
    last_touch := toI32 now }

/-- Method `Button::touched`: the returned flag and the button afterwards.
`now` is what `millis()` returns in the condition and `now2` what it returns in
the assignment to `last_touch`. -/
def Button.touched (b : Button) (touch_x touch_y : Int) (now now2 : Nat) : Bool × Button :=
  if touch_x ≥ b.x ∧ touch_x < iadd b.x b.dx ∧
     touch_y ≥ b.y ∧ touch_y < iadd b.y b.dy ∧
     usub now 200 > toU32 b.last_touch then
    (true, { b with last_touch := toI32 now2 })
  else
    (false, b)

/-! ## Field-vector glyphs -/

/-- Local `rcos45` of `draw_z_arrow`: `(z*71/100)/2`. -/
def rcos45 (z : Int) : Int := idiv (idiv (imul z 71) 100) 2

/-- Function `draw_z_arrow`: the calls it makes on the display. -/
def draw_z_arrow (x y z : Int) (color : Nat) : List DrawCmd :=
  let rcos45 := rcos45 z
  if z > 0 then
    [DrawCmd.drawCircle x y (idiv z 2) color,
     DrawCmd.fillCircle x y (idiv z 10) color]
  else
    [DrawCmd.drawCircle x y (idiv (ineg z) 2) color,
     DrawCmd.drawLine (iadd x rcos45) (iadd y rcos45) (isub x rcos45) (isub y rcos45) color,
     DrawCmd.drawLine (iadd x rcos45) (isub y rcos45) (isub x rcos45) (iadd y rcos45) color]

/-- Local `n_lines` of `draw_arrow`. -/
def n_lines : Nat := 3

/-- Local array `unit_startx` of `draw_arrow`. -/
def unit_startx : List Int := [0, 100, 100]

/-- Local array `unit_starty` of `draw_arrow`. -/
def unit_starty : List Int := [0, 0, 0]

/-- Local array `unit_endx` of `draw_arrow`. -/
def unit_endx : List Int := [100, 85, 85]

/-- Local array `unit_endy` of `draw_arrow`. -/
def unit_endy : List Int := [0, 10, -10]

/-- Body of the loop of `draw_arrow` for index `i`: the line it draws. -/
def draw_arrow_line (x y dx dy : Int) (color : Nat) (i : Nat) : DrawCmd :=
  let startx := iadd x (idiv (isub (imul (unit_startx.getD i 0) dx) (imul (unit_starty.getD i 0) dy)) 100)
  let endx := iadd x (idiv (isub (imul (unit_endx.getD i 0) dx) (imul (unit_endy.getD i 0) dy)) 100)
  let starty := iadd y (idiv (iadd (imul (unit_startx.getD i 0) dy) (imul (unit_starty.getD i 0) dx)) 100)
  let endy := iadd y (idiv (iadd (imul (unit_endx.getD i 0) dy) (imul (unit_endy.getD i 0) dx)) 100)
  DrawCmd.drawLine startx starty endx endy color

/-- Function `draw_arrow`: the calls it makes on the display, for
`i = 0, ..., n_lines - 1` in order. -/
def draw_arrow (x y dx dy : Int) (color : Nat) : List DrawCmd :=
  (List.range n_lines).map (draw_arrow_line x y dx dy color)

/-! ## Definitions that follow the specification's wording -/

/-- Cross arm half-length as the specification words it, `round(|z| * 0.71 / 2)`,
over the rationals. -/
def spec_cross_half_length (z : Int) : Int := round ((|z| : ℚ) * (71 / 100) / 2)

/-- The arrow transform as the specification words it: the unit endpoint
`(ux, uy)` goes to `(x + (ux·dx − uy·dy)/100, y + (ux·dy + uy·dx)/100)`, the
division truncating toward zero, over the mathematical integers. -/
def spec_arrow_point (x y dx dy : Int) (u : Int × Int) : Int × Int :=
  (x + Int.tdiv (u.1 * dx - u.2 * dy) 100, y + Int.tdiv (u.1 * dy + u.2 * dx) 100)

/-- The line from the image of unit endpoint `u` to the image of `v`. -/
def spec_arrow_segment (x y dx dy : Int) (color : Nat) (u v : Int × Int) : DrawCmd :=
  DrawCmd.drawLine (spec_arrow_point x y dx dy u).1 (spec_arrow_point x y dx dy u).2
    (spec_arrow_point x y dx dy v).1 (spec_arrow_point x y dx dy v).2 color

/-- The call is a `drawLine` whose two endpoints are `p` and `q`, in either order. -/
def DrawCmd.joins : DrawCmd → Int × Int → Int × Int → Prop
  | DrawCmd.drawLine x0 y0 x1 y1 _, p, q =>
      ((x0, y0) = p ∧ (x1, y1) = q) ∨ ((x0, y0) = q ∧ (x1, y1) = p)
  | _, _, _ => False

instance (c : DrawCmd) (p q : Int × Int) : Decidable (c.joins p q) := by
  cases c <;> unfold DrawCmd.joins <;> exact inferInstance

/-- The touch point lies in `[x, x+dx) × [y, y+dy)`. -/
def Button.contains (b : Button) (touch_x touch_y : Int) : Prop :=
  b.x ≤ touch_x ∧ touch_x < b.x + b.dx ∧ b.y ≤ touch_y ∧ touch_y < b.y + b.dy

instance (b : Button) (tx ty : Int) : Decidable (b.contains tx ty) := by
  unfold Button.contains; exact inferInstance

/-- Modelled from the spec: the display library's constant `MC_DATUM`, the
centre anchoring of text ("center-anchored"); the library header is not among
the sources, and no theorem depends on the number. -/
def MC_DATUM : Nat := 4

/-- Modelled from the spec: the display library's colour `TFT_BLACK` ("BLACK"),
the default background of the constructor; the library header is not among the
sources. -/
def TFT_BLACK : Nat := 0

/-- Modelled from the spec: the display library's colour `TFT_WHITE` ("WHITE"),
the default foreground of the constructor; the library header is not among the
sources. -/
def TFT_WHITE : Nat := 65535

/-- Method `Button::draw`: the calls it makes on the display, and the button
afterwards (no field is assigned). -/
def Button.draw (b : Button) : List DrawCmd × Button :=
  let colors : Nat × Nat :=
    if b.selected then (b.fgcolor, b.bgcolor) else (b.bgcolor, b.fgcolor)
  let color1 := colors.1
  let color2 := colors.2
  ([DrawCmd.fillRect b.x b.y b.dx b.dy color1,
    DrawCmd.drawRect b.x b.y b.dx b.dy color2,
    DrawCmd.setTextDatum MC_DATUM,
    DrawCmd.setTextColor color2,
    DrawCmd.setTextFont 2,
    DrawCmd.drawString b.text (iadd b.x (idiv b.dx 2)) (iadd b.y (idiv b.dy 2))], b)

/-- Constructor `Button::Button` called with the default arguments of its
declaration: `setdx=20, setdy=20, setbgcolor=TFT_BLACK, setfgcolor=TFT_WHITE,
setselected=true`. -/
def Button.ctor_default (settext : String) (setx sety : Int) (now : Nat) : Button :=
  Button.ctor settext setx sety 20 20 TFT_BLACK TFT_WHITE true now

/-- The endpoints of the unit arrow shape of `draw_arrow`, as pairs `(ux, uy)`. -/
def unit_endpoints : List (Int × Int) := [(0, 0), (100, 0), (85, 10), (85, -10)]

/-- No `int` operation of `draw_arrow x y dx dy` leaves the `int` range:
`100*dx` and `100*dy` fit, and so does every transformed endpoint. -/
def arrow_in_range (x y dx dy : Int) : Prop :=
  fitsInt (100 * dx) ∧ fitsInt (100 * dy) ∧
  ∀ u ∈ unit_endpoints,
    fitsInt (spec_arrow_point x y dx dy u).1 ∧ fitsInt (spec_arrow_point x y dx dy u).2

instance (x y dx dy : Int) : Decidable (arrow_in_range x y dx dy) := by
  unfold arrow_in_range; exact inferInstance

/-! ## Arithmetic lemmas -/

theorem wrapInt_of_fits {v : Int} (h : fitsInt v) : wrapInt v = v := by
  unfold fitsInt INT_MIN INT_MAX at h
  unfold wrapInt
  omega

theorem fitsInt_tdiv {a b : Int} (hb : 0 < b) (ha : fitsInt a) : fitsInt (a.tdiv b) := by
  unfold fitsInt INT_MIN INT_MAX at *
  rcases le_or_lt 0 a with h | h
  · rw [Int.tdiv_eq_ediv h hb.le]
    have h1 : 0 ≤ a / b := Int.ediv_nonneg h hb.le
    have h2 : a / b ≤ a := Int.ediv_le_self b h
    omega
  · have hn : 0 ≤ -a := by omega
    have e : a.tdiv b = -((-a) / b) := by
      rw [← Int.tdiv_eq_ediv hn hb.le, Int.neg_tdiv, neg_neg]
    have h1 : 0 ≤ (-a) / b := Int.ediv_nonneg hn hb.le
    have h2 : (-a) / b ≤ -a := Int.ediv_le_self b hn
    omega

theorem idiv_of_fits {a b : Int} (hb : 0 < b) (ha : fitsInt a) : idiv a b = a.tdiv b :=
  wrapInt_of_fits (fitsInt_tdiv hb ha)

theorem toU32_toI32 {n : Nat} (h : n < U32_MOD) : toU32 (toI32 n) = n := by
  unfold U32_MOD at h
  unfold toU32 toI32 wrapInt
  omega

theorem usub_of_le {a b : Nat} (hb : b ≤ a) (ha : a < U32_MOD) : usub a b = a - b := by
  unfold U32_MOD at ha
  unfold usub U32_MOD
  omega

theorem touched_fst (b : Button) (tx ty : Int) (now now2 : Nat) :
    (b.touched tx ty now now2).1 = true ↔
      (tx ≥ b.x ∧ tx < iadd b.x b.dx ∧ ty ≥ b.y ∧ ty < iadd b.y b.dy ∧
        usub now 200 > toU32 b.last_touch) := by
  unfold Button.touched
  split <;> simp_all

theorem touched_snd_of_true (b : Button) (tx ty : Int) (now now2 : Nat)
    (h : (b.touched tx ty now now2).1 = true) :
    (b.touched tx ty now now2).2 = { b with last_touch := toI32 now2 } := by
  unfold Button.touched at h ⊢
  split <;> simp_all

theorem touched_snd_of_false (b : Button) (tx ty : Int) (now now2 : Nat)
    (h : (b.touched tx ty now now2).1 = false) :
    (b.touched tx ty now now2).2 = b := by
  unfold Button.touched at h ⊢
  split <;> simp_all

/-- Debounce where the clock has passed 200: after a call accepted at `t1`, a
call at `t2` with `t1 ≤ t2`, `200 ≤ t2` and `t2 - t1 < 200` is rejected. -/
theorem touched_debounce_from_200 (b : Button) (tx ty tx2 ty2 : Int) (t1 t2 : Nat)
    (h12 : t1 ≤ t2) (h2 : t2 < U32_MOD) (h200 : 200 ≤ t2) (hd : t2 - t1 < 200)
    (hacc : (b.touched tx ty t1 t1).1 = true) :
    ((b.touched tx ty t1 t1).2.touched tx2 ty2 t2 t2).1 = false := by
  rw [touched_snd_of_true b tx ty t1 t1 hacc]
  rw [Bool.eq_false_iff]
  intro h
  rw [touched_fst] at h
  obtain ⟨-, -, -, -, h⟩ := h
  have e : toU32 (toI32 t1) = t1 := toU32_toI32 (lt_of_le_of_lt h12 h2)
  simp only [e, usub_of_le h200 h2] at h
  omega

/-! ## Button::touched -/

/-- C1 (as stated, refuted): a button at (0,0) of size 20×20 last accepted a
touch at clock 1000; a touch at (5,5) at clock 1200, exactly 200 ms later, is
inside the rectangle and `now - last_touch ≥ 200`, yet `touched` returns false. -/
theorem touched_iff_ge_200_counterexample :
    ¬ (((Button.mk 0 0 20 20 0 65535 1000 true "A").touched 5 5 1200 1200).1 = true ↔
        ((0 : Int) ≤ 5 ∧ (5 : Int) < 0 + 20 ∧ (0 : Int) ≤ 5 ∧ (5 : Int) < 0 + 20 ∧
          (1200 : Int) - 1000 ≥ 200)) := by
  decide

/-- C1 (amended): for a clock value `200 ≤ now < 2^32` and a button whose
`x+dx` and `y+dy` fit in `int`, `touched` returns true exactly when the touch
point lies in `[x, x+dx) × [y, y+dy)` and strictly more than 200 ms have
elapsed since the clock value held in `last_touch` (read as unsigned). -/
theorem touched_iff_gt_200 (b : Button) (touch_x touch_y : Int) (now : Nat)
    (hx : fitsInt (b.x + b.dx)) (hy : fitsInt (b.y + b.dy))
    (h200 : 200 ≤ now) (hnow : now < U32_MOD) :
    (b.touched touch_x touch_y now now).1 = true ↔
      (b.x ≤ touch_x ∧ touch_x < b.x + b.dx ∧ b.y ≤ touch_y ∧ touch_y < b.y + b.dy ∧
        (now : Int) - (toU32 b.last_touch : Int) > 200) := by
  rw [touched_fst, usub_of_le h200 hnow]
  unfold iadd
  rw [wrapInt_of_fits hx, wrapInt_of_fits hy]
  constructor
  · rintro ⟨h1, h2, h3, h4, h5⟩
    refine ⟨h1, h2, h3, h4, ?_⟩
    omega
  · rintro ⟨h1, h2, h3, h4, h5⟩
    refine ⟨h1, h2, h3, h4, ?_⟩
    omega

/-- Witness of C1 (amended): clock 1201 against a last touch at 1000. -/
theorem touched_iff_gt_200_witness :
    ((Button.mk 0 0 20 20 0 65535 1000 true "A").touched 5 5 1201 1201).1 = true ↔
      ((0 : Int) ≤ 5 ∧ (5 : Int) < 0 + 20 ∧ (0 : Int) ≤ 5 ∧ (5 : Int) < 0 + 20 ∧
        ((1201 : Nat) : Int) - (toU32 (1000 : Int) : Int) > 200) :=
  touched_iff_gt_200 (Button.mk 0 0 20 20 0 65535 1000 true "A") 5 5 1201
    (by decide) (by decide) (by decide) (by decide)

/-- C2 (the code at the failing input): a button built at clock 0 accepts a
touch at clock 50 and accepts the same touch again at clock 60, only 10 ms
later; `millis()-200` has wrapped to a value near `2^32`. -/
theorem touched_debounce_fails_before_200 :
    ((Button.ctor "A" 0 0 20 20 0 65535 true 0).touched 5 5 50 50).1 = true ∧
    (((Button.ctor "A" 0 0 20 20 0 65535 true 0).touched 5 5 50 50).2.touched 5 5 60 60).1
      = true ∧
    usub 60 200 = 4294967156 := by
  decide

/-- C3: a call of `touched` that returns false leaves the button as it was; and
a touch point outside `[x, x+dx) × [y, y+dy)` makes `touched` return false and
leaves `last_touch` unchanged, whatever the clock and `last_touch`. -/
theorem touched_false_no_effect (b : Button) (touch_x touch_y : Int) (now now2 : Nat) :
    ((b.touched touch_x touch_y now now2).1 = false →
        (b.touched touch_x touch_y now now2).2 = b) ∧
    (fitsInt (b.x + b.dx) → fitsInt (b.y + b.dy) →
      ¬ (b.x ≤ touch_x ∧ touch_x < b.x + b.dx ∧ b.y ≤ touch_y ∧ touch_y < b.y + b.dy) →
        (b.touched touch_x touch_y now now2).1 = false ∧
        (b.touched touch_x touch_y now now2).2.last_touch = b.last_touch) := by
  refine ⟨touched_snd_of_false b touch_x touch_y now now2, ?_⟩
  intro hx hy hout
  have hf : (b.touched touch_x touch_y now now2).1 = false := by
    rw [Bool.eq_false_iff]
    intro h
    rw [touched_fst] at h
    unfold iadd at h
    rw [wrapInt_of_fits hx, wrapInt_of_fits hy] at h
    exact hout ⟨h.1, h.2.1, h.2.2.1, h.2.2.2.1⟩
  exact ⟨hf, by rw [touched_snd_of_false b touch_x touch_y now now2 hf]⟩

/-- Witness of C3: the point (30,5) is outside a 20×20 button at the origin. -/
theorem touched_false_no_effect_witness :
    ((Button.mk 0 0 20 20 0 65535 1000 true "A").touched 30 5 5000 5000).1 = false ∧
    ((Button.mk 0 0 20 20 0 65535 1000 true "A").touched 30 5 5000 5000).2.last_touch = 1000 :=
  (touched_false_no_effect (Button.mk 0 0 20 20 0 65535 1000 true "A") 30 5 5000 5000).2
    (by decide) (by decide) (by decide)

/-- C4: when `touched` returns true at a clock value `now < 2^31` (read the same
in the condition and in the assignment), `last_touch` afterwards equals `now`
and every other field is unchanged. -/
theorem touched_true_sets_last_touch (b : Button) (touch_x touch_y : Int) (now : Nat)
    (hnow : now < 2147483648)
    (h : (b.touched touch_x touch_y now now).1 = true) :
    (b.touched touch_x touch_y now now).2.last_touch = (now : Int) ∧
    (b.touched touch_x touch_y now now).2.x = b.x ∧
    (b.touched touch_x touch_y now now).2.y = b.y ∧
    (b.touched touch_x touch_y now now).2.dx = b.dx ∧
    (b.touched touch_x touch_y now now).2.dy = b.dy ∧
    (b.touched touch_x touch_y now now).2.bgcolor = b.bgcolor ∧
    (b.touched touch_x touch_y now now).2.fgcolor = b.fgcolor ∧
    (b.touched touch_x touch_y now now).2.selected = b.selected ∧
    (b.touched touch_x touch_y now now).2.text = b.text := by
  rw [touched_snd_of_true b touch_x touch_y now now h]
  refine ⟨?_, rfl, rfl, rfl, rfl, rfl, rfl, rfl, rfl⟩
  show toI32 now = (now : Int)
  unfold toI32 wrapInt
  omega

/-- Witness of C4: a touch accepted at clock 5000. -/
theorem touched_true_sets_last_touch_witness :
    ((Button.mk 0 0 20 20 0 65535 1000 true "A").touched 5 5 5000 5000).1 = true ∧
    ((Button.mk 0 0 20 20 0 65535 1000 true "A").touched 5 5 5000 5000).2.last_touch = 5000 :=
  ⟨by decide,
   (touched_true_sets_last_touch (Button.mk 0 0 20 20 0 65535 1000 true "A") 5 5 5000
      (by decide) (by decide)).1⟩

/-- C5 (as stated, refuted): a 20×20 button constructed at clock 1000 and
touched at (5,5), inside it, at clock 1100 returns false on that first call. -/
theorem first_touch_counterexample :
    ((0 : Int) < 20 ∧ (0 : Int) < 20 ∧
      (0 : Int) ≤ 5 ∧ (5 : Int) < 0 + 20 ∧ (0 : Int) ≤ 5 ∧ (5 : Int) < 0 + 20 ∧
      (1000 : Nat) ≤ 1100) ∧
    ¬ (((Button.ctor "A" 0 0 20 20 0 65535 true 1000).touched 5 5 1100 1100).1 = true) := by
  decide

/-- C5 (amended): for a button constructed at clock `t0` and a touch point
inside `[x, x+w) × [y, y+h)`, the first call of `touched`, made at a clock value
`t` with `t0 ≤ t`, `200 ≤ t < 2^32`, returns true exactly when more than 200 ms
have passed since construction, `t0 + 200 < t`. -/
theorem first_touch_iff (text : String) (x y w h : Int) (bg fg : Nat) (sel : Bool)
    (t0 t : Nat) (touch_x touch_y : Int)
    (hx : fitsInt (x + w)) (hy : fitsInt (y + h))
    (hin : x ≤ touch_x ∧ touch_x < x + w ∧ y ≤ touch_y ∧ touch_y < y + h)
    (h0 : t0 ≤ t) (h200 : 200 ≤ t) (ht : t < U32_MOD) :
    ((Button.ctor text x y w h bg fg sel t0).touched touch_x touch_y t t).1 = true ↔
      t0 + 200 < t := by
  rw [touched_fst, usub_of_le h200 ht]
  have e : toU32 (Button.ctor text x y w h bg fg sel t0).last_touch = t0 :=
    toU32_toI32 (lt_of_le_of_lt h0 ht)
  rw [e]
  show (touch_x ≥ x ∧ touch_x < iadd x w ∧ touch_y ≥ y ∧ touch_y < iadd y h ∧ _) ↔ _
  unfold iadd
  rw [wrapInt_of_fits hx, wrapInt_of_fits hy]
  constructor
  · rintro ⟨-, -, -, -, h5⟩
    omega
  · intro h5
    refine ⟨hin.1, hin.2.1, hin.2.2.1, hin.2.2.2, ?_⟩
    omega

/-- Witness of C5 (amended): construction at clock 1000, first touch at 1201. -/
theorem first_touch_iff_witness :
    ((Button.ctor "A" 0 0 20 20 0 65535 true 1000).touched 5 5 1201 1201).1 = true ↔
      1000 + 200 < 1201 :=
  first_touch_iff "A" 0 0 20 20 0 65535 true 1000 1201 5 5
    (by decide) (by decide) (by decide) (by decide) (by decide) (by decide)

/-! ## draw_z_arrow -/

theorem spec_cross_half_length_neg_ten : spec_cross_half_length (-10) = 4 := by
  unfold spec_cross_half_length
  rw [round_eq, Int.floor_eq_iff]
  norm_num

theorem rcos45_of_nonpos {z : Int} (hz : z ≤ 0) (hm : fitsInt (z * 71)) :
    rcos45 z = -(|z| * 71 / 100 / 2) := by
  have habs : |z| = -z := abs_of_nonpos hz
  have h0 : 0 ≤ -z * 71 := by omega
  have e1 : (z * 71).tdiv 100 = -(-z * 71 / 100) := by
    rw [← Int.tdiv_eq_ediv h0 (by decide), ← Int.neg_tdiv]
    congr 1
    ring
  have hq : 0 ≤ -z * 71 / 100 := Int.ediv_nonneg h0 (by decide)
  have e2 : (-(-z * 71 / 100)).tdiv 2 = -(-z * 71 / 100 / 2) := by
    rw [Int.neg_tdiv, Int.tdiv_eq_ediv hq (by decide)]
  unfold rcos45 imul
  rw [wrapInt_of_fits hm, idiv_of_fits (by decide) hm, idiv_of_fits (by decide), habs, e1, e2]
  exact fitsInt_tdiv (by decide) hm

theorem radius_of_nonpos {z : Int} (hz : z ≤ 0) (hm : fitsInt (z * 71)) :
    idiv (ineg z) 2 = |z| / 2 := by
  have habs : |z| = -z := abs_of_nonpos hz
  have hf : fitsInt (-z) := by
    unfold fitsInt INT_MIN INT_MAX at *
    omega
  unfold ineg
  rw [wrapInt_of_fits hf, idiv_of_fits (by decide) hf, habs,
    Int.tdiv_eq_ediv (by omega) (by decide)]

/-- C6 (as stated, refuted): at `z = -10` the specification's half-length
`round(10 * 0.71 / 2)` is 4, and the calls made at the anchor (0, 0) are not a
circle of radius 5 followed by lines joining (4, 4), (-4, -4) and (4, -4), (-4, 4). -/
theorem draw_z_arrow_round_counterexample :
    spec_cross_half_length (-10) = 4 ∧
    ¬ (∃ l1 l2 : DrawCmd,
        draw_z_arrow 0 0 (-10) 0 = [DrawCmd.drawCircle 0 0 (|(-10 : Int)| / 2) 0, l1, l2] ∧
        l1.joins (0 + spec_cross_half_length (-10), 0 + spec_cross_half_length (-10))
          (0 - spec_cross_half_length (-10), 0 - spec_cross_half_length (-10)) ∧
        l2.joins (0 + spec_cross_half_length (-10), 0 - spec_cross_half_length (-10))
          (0 - spec_cross_half_length (-10), 0 + spec_cross_half_length (-10))) := by
  refine ⟨spec_cross_half_length_neg_ten, ?_⟩
  rintro ⟨l1, l2, heq, h1, -⟩
  have hcode : draw_z_arrow 0 0 (-10) 0 =
      [DrawCmd.drawCircle 0 0 5 0, DrawCmd.drawLine (-3) (-3) 3 3 0,
       DrawCmd.drawLine (-3) 3 3 (-3) 0] := by decide
  rw [hcode] at heq
  have hl1 : l1 = DrawCmd.drawLine (-3) (-3) 3 3 0 := by
    simp only [List.cons.injEq] at heq
    exact heq.2.1.symm
  rw [hl1, spec_cross_half_length_neg_ten] at h1
  simp [DrawCmd.joins] at h1

/-- C6 (amended): for `z ≤ 0` (with `z*71` and the endpoint coordinates within
`int`) `draw_z_arrow` emits a circle outline centred at `(x, y)` of radius
`|z|/2` and exactly two diagonal lines, from `(x-h, y-h)` to `(x+h, y+h)` and
from `(x-h, y+h)` to `(x+h, y-h)`, with `h = ((|z|*71)/100)/2` in integer
division (truncation, not rounding). -/
theorem draw_z_arrow_cross (x y z : Int) (color : Nat) (hz : z ≤ 0)
    (hm : fitsInt (z * 71))
    (hxp : fitsInt (x + |z| * 71 / 100 / 2)) (hxm : fitsInt (x - |z| * 71 / 100 / 2))
    (hyp : fitsInt (y + |z| * 71 / 100 / 2)) (hym : fitsInt (y - |z| * 71 / 100 / 2)) :
    draw_z_arrow x y z color =
      [DrawCmd.drawCircle x y (|z| / 2) color,
       DrawCmd.drawLine (x - |z| * 71 / 100 / 2) (y - |z| * 71 / 100 / 2)
         (x + |z| * 71 / 100 / 2) (y + |z| * 71 / 100 / 2) color,
       DrawCmd.drawLine (x - |z| * 71 / 100 / 2) (y + |z| * 71 / 100 / 2)
         (x + |z| * 71 / 100 / 2) (y - |z| * 71 / 100 / 2) color] := by
  have hnot : ¬ z > 0 := by omega
  unfold draw_z_arrow
  simp only [hnot, if_false]
  rw [rcos45_of_nonpos hz hm, radius_of_nonpos hz hm]
  unfold iadd isub
  rw [← sub_eq_add_neg x, ← sub_eq_add_neg y, sub_neg_eq_add x, sub_neg_eq_add y,
    wrapInt_of_fits hxp, wrapInt_of_fits hxm, wrapInt_of_fits hyp, wrapInt_of_fits hym]

/-- Witness of C6 (amended): at `z = -10` and the anchor (100, 50) the circle
has radius 5 and the lines have endpoints (100±3, 50±3). -/
theorem draw_z_arrow_cross_witness :
    draw_z_arrow 100 50 (-10) 7 =
      [DrawCmd.drawCircle 100 50 5 7, DrawCmd.drawLine 97 47 103 53 7,
       DrawCmd.drawLine 97 53 103 47 7] :=
  draw_z_arrow_cross 100 50 (-10) 7 (by decide) (by decide) (by decide) (by decide)
    (by decide) (by decide)

/-- C7: for `z > 0` with `z*71` within `int`, `draw_z_arrow` emits exactly two
calls and no line: `drawCircle(x, y, z/2, color)` then
`fillCircle(x, y, z/10, color)`, in integer division. -/
theorem draw_z_arrow_dot (x y z : Int) (color : Nat) (hz : 0 < z)
    (hm : fitsInt (z * 71)) :
    draw_z_arrow x y z color =
      [DrawCmd.drawCircle x y (z / 2) color, DrawCmd.fillCircle x y (z / 10) color] := by
  have hf : fitsInt z := by
    unfold fitsInt INT_MIN INT_MAX at *
    omega
  have hpos : z > 0 := hz
  unfold draw_z_arrow
  simp only [hpos, if_true]
  rw [idiv_of_fits (by decide) hf, idiv_of_fits (by decide) hf,
    Int.tdiv_eq_ediv hz.le (by decide), Int.tdiv_eq_ediv hz.le (by decide)]

/-- Witness of C7: for `z = 10` the radii are 5 and 1. -/
theorem draw_z_arrow_dot_witness :
    draw_z_arrow 100 50 10 7 =
      [DrawCmd.drawCircle 100 50 5 7, DrawCmd.fillCircle 100 50 1 7] :=
  draw_z_arrow_dot 100 50 10 7 (by decide) (by decide)

/-- C8 (as stated, refuted): at `z = -3` the circle has radius 1 and the cross
offset is 1 in absolute value, so the endpoint (1, 1) lies outside the circle:
`2*1*1 > 1*1`. -/
theorem cross_inscribed_counterexample :
    draw_z_arrow 0 0 (-3) 0 =
      [DrawCmd.drawCircle 0 0 1 0, DrawCmd.drawLine (-1) (-1) 1 1 0,
       DrawCmd.drawLine (-1) 1 1 (-1) 0] ∧
    |rcos45 (-3)| = 1 ∧
    ¬ (2 * |rcos45 (-3)| * |rcos45 (-3)| ≤ 1 * 1) := by
  decide

/-- C8 (amended): for `z ≤ 0` (with `z*71` within `int`), with `r = |z|/2` the
radius passed to `drawCircle` and `h = |rcos45|` the offset of the line
endpoints, `h ≤ r` and `200*h ≤ 71*|z|`: each endpoint coordinate is within
0.71 of half of `|z|`, and within `r`, of the centre. -/
theorem cross_offset_le_radius (x y z : Int) (color : Nat) (hz : z ≤ 0)
    (hm : fitsInt (z * 71)) :
    ∃ r : Int, (draw_z_arrow x y z color).head? = some (DrawCmd.drawCircle x y r color) ∧
      r = |z| / 2 ∧ |rcos45 z| ≤ r ∧ 200 * |rcos45 z| ≤ 71 * |z| := by
  have hnot : ¬ z > 0 := by omega
  refine ⟨|z| / 2, ?_, rfl, ?_, ?_⟩
  · unfold draw_z_arrow
    simp only [hnot, if_false, List.head?_cons]
    rw [radius_of_nonpos hz hm]
  · rw [rcos45_of_nonpos hz hm, abs_neg]
    have hn : 0 ≤ |z| := abs_nonneg z
    rw [abs_of_nonneg (by omega)]
    omega
  · rw [rcos45_of_nonpos hz hm, abs_neg]
    have hn : 0 ≤ |z| := abs_nonneg z
    rw [abs_of_nonneg (by omega)]
    omega

/-- Witness of C8 (amended): at `z = -3` the radius is 1 and the offset is 1. -/
theorem cross_offset_le_radius_witness :
    ∃ r : Int, (draw_z_arrow 0 0 (-3) 0).head? = some (DrawCmd.drawCircle 0 0 r 0) ∧
      r = |(-3 : Int)| / 2 ∧ |rcos45 (-3)| ≤ r ∧ 200 * |rcos45 (-3)| ≤ 71 * |(-3 : Int)| :=
  cross_offset_le_radius 0 0 (-3) 0 (by decide) (by decide)

/-- C9: for `z = 0`, `draw_z_arrow` takes the cross branch: it emits
`drawCircle(x, y, 0, color)` and two lines from `(x, y)` to `(x, y)`, and no
filled dot. -/
theorem draw_z_arrow_zero (x y : Int) (color : Nat) (hx : fitsInt x) (hy : fitsInt y) :
    draw_z_arrow x y 0 color =
      [DrawCmd.drawCircle x y 0 color, DrawCmd.drawLine x y x y color,
       DrawCmd.drawLine x y x y color] ∧
    ∀ (cx cy r : Int) (c : Nat), DrawCmd.fillCircle cx cy r c ∉ draw_z_arrow x y 0 color := by
  have hr : rcos45 0 = 0 := by decide
  have hrad : idiv (ineg 0) 2 = 0 := by decide
  have e : draw_z_arrow x y 0 color =
      [DrawCmd.drawCircle x y 0 color, DrawCmd.drawLine x y x y color,
       DrawCmd.drawLine x y x y color] := by
    unfold draw_z_arrow
    simp only [gt_iff_lt, lt_self_iff_false, if_false, hr, hrad]
    unfold iadd isub
    rw [add_zero, add_zero, sub_zero, sub_zero, wrapInt_of_fits hx, wrapInt_of_fits hy]
  refine ⟨e, ?_⟩
  intro cx cy r c hmem
  rw [e] at hmem
  simp at hmem

/-- Witness of C9: the anchor (100, 50). -/
theorem draw_z_arrow_zero_witness :
    draw_z_arrow 100 50 0 7 =
      [DrawCmd.drawCircle 100 50 0 7, DrawCmd.drawLine 100 50 100 50 7,
       DrawCmd.drawLine 100 50 100 50 7] :=
  (draw_z_arrow_zero 100 50 7 (by decide) (by decide)).1

/-! ## draw_arrow -/

theorem arrow_coord_sub (x dx dy ux uy : Int) (h1 : fitsInt (ux * dx))
    (h2 : fitsInt (uy * dy)) (h3 : fitsInt (ux * dx - uy * dy))
    (h4 : fitsInt (x + (ux * dx - uy * dy).tdiv 100)) :
    iadd x (idiv (isub (imul ux dx) (imul uy dy)) 100) =
      x + (ux * dx - uy * dy).tdiv 100 := by
  unfold iadd isub imul
  rw [wrapInt_of_fits h1, wrapInt_of_fits h2, wrapInt_of_fits h3,
    idiv_of_fits (by decide) h3, wrapInt_of_fits h4]

theorem arrow_coord_add (y dx dy ux uy : Int) (h1 : fitsInt (ux * dy))
    (h2 : fitsInt (uy * dx)) (h3 : fitsInt (ux * dy + uy * dx))
    (h4 : fitsInt (y + (ux * dy + uy * dx).tdiv 100)) :
    iadd y (idiv (iadd (imul ux dy) (imul uy dx)) 100) =
      y + (ux * dy + uy * dx).tdiv 100 := by
  unfold iadd imul
  rw [wrapInt_of_fits h1, wrapInt_of_fits h2, wrapInt_of_fits h3,
    idiv_of_fits (by decide) h3, wrapInt_of_fits h4]

/-- C10: when `100*dx` and `100*dy` are within `int` and the images of the unit
endpoints (0,0), (100,0), (85,10), (85,-10) under the specification's transform
are `int` values, `draw_arrow` emits exactly three `drawLine` calls, in order
the images of the unit segments (0,0)-(100,0), (100,0)-(85,10),
(100,0)-(85,-10), all in the given colour. -/
theorem draw_arrow_segments (x y dx dy : Int) (color : Nat)
    (hdx : fitsInt (100 * dx)) (hdy : fitsInt (100 * dy))
    (hpts : ∀ u ∈ [((0 : Int), (0 : Int)), (100, 0), (85, 10), (85, -10)],
      fitsInt (spec_arrow_point x y dx dy u).1 ∧ fitsInt (spec_arrow_point x y dx dy u).2) :
    draw_arrow x y dx dy color =
      [spec_arrow_segment x y dx dy color (0, 0) (100, 0),
       spec_arrow_segment x y dx dy color (100, 0) (85, 10),
       spec_arrow_segment x y dx dy color (100, 0) (85, -10)] := by
  have p0 := hpts (0, 0) (by simp)
  have p1 := hpts (100, 0) (by simp)
  have p2 := hpts (85, 10) (by simp)
  have p3 := hpts (85, -10) (by simp)
  simp only [spec_arrow_point] at p0 p1 p2 p3
  unfold fitsInt INT_MIN INT_MAX at hdx hdy
  have f : ∀ a b : Int,
      ((a = 0 ∧ b = 0) ∨ (a = 100 ∧ b = 0) ∨ (a = 85 ∧ b = 10) ∨ (a = 85 ∧ b = -10)) →
      fitsInt (a * dx) ∧ fitsInt (a * dy) ∧ fitsInt (b * dx) ∧ fitsInt (b * dy) ∧
      fitsInt (a * dx - b * dy) ∧ fitsInt (a * dy + b * dx) := by
    intro a b hab
    unfold fitsInt INT_MIN INT_MAX
    rcases hab with ⟨rfl, rfl⟩ | ⟨rfl, rfl⟩ | ⟨rfl, rfl⟩ | ⟨rfl, rfl⟩ <;> omega
  have f00 := f 0 0 (by simp)
  have f10 := f 100 0 (by simp)
  have f81 := f 85 10 (by simp)
  have f82 := f 85 (-10) (by simp)
  have e : draw_arrow x y dx dy color =
      [draw_arrow_line x y dx dy color 0, draw_arrow_line x y dx dy color 1,
       draw_arrow_line x y dx dy color 2] := rfl
  rw [e]
  simp only [draw_arrow_line, spec_arrow_segment, spec_arrow_point, unit_startx, unit_starty,
    unit_endx, unit_endy, List.getD_cons_zero, List.getD_cons_succ]
  rw [arrow_coord_sub x dx dy 0 0 f00.1 f00.2.2.2.1 f00.2.2.2.2.1 p0.1,
    arrow_coord_add y dx dy 0 0 f00.2.1 f00.2.2.1 f00.2.2.2.2.2 p0.2,
    arrow_coord_sub x dx dy 100 0 f10.1 f10.2.2.2.1 f10.2.2.2.2.1 p1.1,
    arrow_coord_add y dx dy 100 0 f10.2.1 f10.2.2.1 f10.2.2.2.2.2 p1.2,
    arrow_coord_sub x dx dy 85 10 f81.1 f81.2.2.2.1 f81.2.2.2.2.1 p2.1,
    arrow_coord_add y dx dy 85 10 f81.2.1 f81.2.2.1 f81.2.2.2.2.2 p2.2,
    arrow_coord_sub x dx dy 85 (-10) f82.1 f82.2.2.2.1 f82.2.2.2.2.1 p3.1,
    arrow_coord_add y dx dy 85 (-10) f82.2.1 f82.2.2.1 f82.2.2.2.2.2 p3.2]

/-- Witness of C10: the vector (-7, 3) at the anchor (5, 5); the quotients
`-665/100`, `185/100`, `-525/100`, `325/100` are truncated toward zero. -/
theorem draw_arrow_segments_witness :
    draw_arrow 5 5 (-7) 3 9 =
      [DrawCmd.drawLine 5 5 (-2) 8 9, DrawCmd.drawLine (-2) 8 (-1) 6 9,
       DrawCmd.drawLine (-2) 8 0 8 9] :=
  draw_arrow_segments 5 5 (-7) 3 9 (by decide) (by decide) (by decide)

/-! ## draw_arrow: exact coordinates -/

theorem draw_arrow_unfold (x y dx dy : Int) (color : Nat) :
    draw_arrow x y dx dy color =
      [draw_arrow_line x y dx dy color 0, draw_arrow_line x y dx dy color 1,
       draw_arrow_line x y dx dy color 2] := rfl

theorem arrow_point_exact (x y dx dy ux uy : Int) (hu : (ux, uy) ∈ unit_endpoints)
    (h : arrow_in_range x y dx dy) :
    iadd x (idiv (isub (imul ux dx) (imul uy dy)) 100) =
        (spec_arrow_point x y dx dy (ux, uy)).1 ∧
    iadd y (idiv (iadd (imul ux dy) (imul uy dx)) 100) =
        (spec_arrow_point x y dx dy (ux, uy)).2 := by
  obtain ⟨hdx, hdy, hpts⟩ := h
  have hp := hpts (ux, uy) hu
  simp only [spec_arrow_point] at hp ⊢
  have hf : fitsInt (ux * dx) ∧ fitsInt (ux * dy) ∧ fitsInt (uy * dx) ∧ fitsInt (uy * dy) ∧
      fitsInt (ux * dx - uy * dy) ∧ fitsInt (ux * dy + uy * dx) := by
    unfold fitsInt INT_MIN INT_MAX at hdx hdy ⊢
    simp only [unit_endpoints, List.mem_cons, Prod.mk.injEq, List.mem_singleton,
      List.not_mem_nil, or_false] at hu
    rcases hu with ⟨rfl, rfl⟩ | ⟨rfl, rfl⟩ | ⟨rfl, rfl⟩ | ⟨rfl, rfl⟩ <;> omega
  exact ⟨arrow_coord_sub x dx dy ux uy hf.1 hf.2.2.2.1 hf.2.2.2.2.1 hp.1,
    arrow_coord_add y dx dy ux uy hf.2.1 hf.2.2.1 hf.2.2.2.2.2 hp.2⟩

theorem draw_arrow_exact (x y dx dy : Int) (color : Nat) (h : arrow_in_range x y dx dy) :
    draw_arrow x y dx dy color =
      [spec_arrow_segment x y dx dy color (0, 0) (100, 0),
       spec_arrow_segment x y dx dy color (100, 0) (85, 10),
       spec_arrow_segment x y dx dy color (100, 0) (85, -10)] := by
  have p0 := arrow_point_exact x y dx dy 0 0 (by decide) h
  have p1 := arrow_point_exact x y dx dy 100 0 (by decide) h
  have p2 := arrow_point_exact x y dx dy 85 10 (by decide) h
  have p3 := arrow_point_exact x y dx dy 85 (-10) (by decide) h
  rw [draw_arrow_unfold]
  simp only [draw_arrow_line, spec_arrow_segment, unit_startx, unit_starty,
    unit_endx, unit_endy, List.getD_cons_zero, List.getD_cons_succ]
  rw [p0.1, p0.2, p1.1, p1.2, p2.1, p2.2, p3.1, p3.2]

theorem spec_arrow_point_quarter (x y dx dy : Int) (u : Int × Int) :
    spec_arrow_point x y (-dy) dx u =
      (x - ((spec_arrow_point x y dx dy u).2 - y), y + ((spec_arrow_point x y dx dy u).1 - x)) := by
  have e : u.1 * -dy - u.2 * dx = -(u.1 * dy + u.2 * dx) := by ring
  have e2 : u.1 * dx + u.2 * -dy = u.1 * dx - u.2 * dy := by ring
  simp only [spec_arrow_point, e, e2, Int.neg_tdiv, Prod.mk.injEq]
  constructor <;> ring

theorem spec_arrow_point_half (x y dx dy : Int) (u : Int × Int) :
    spec_arrow_point x y (-dx) (-dy) u =
      (x - ((spec_arrow_point x y dx dy u).1 - x), y - ((spec_arrow_point x y dx dy u).2 - y)) := by
  have e : u.1 * -dx - u.2 * -dy = -(u.1 * dx - u.2 * dy) := by ring
  have e2 : u.1 * -dy + u.2 * -dx = -(u.1 * dy + u.2 * dx) := by ring
  simp only [spec_arrow_point, e, e2, Int.neg_tdiv, Prod.mk.injEq]
  constructor <;> ring

theorem spec_arrow_segment_turns (x y dx dy : Int) (color : Nat) (u v : Int × Int)
    (p0 q0 p1 q1 : Int)
    (hseg : spec_arrow_segment x y dx dy color u v =
      DrawCmd.drawLine (x + p0) (y + q0) (x + p1) (y + q1) color) :
    spec_arrow_segment x y (-dy) dx color u v =
        DrawCmd.drawLine (x - q0) (y + p0) (x - q1) (y + p1) color ∧
    spec_arrow_segment x y (-dx) (-dy) color u v =
        DrawCmd.drawLine (x - p0) (y - q0) (x - p1) (y - q1) color := by
  simp only [spec_arrow_segment, DrawCmd.drawLine.injEq, and_true] at hseg
  obtain ⟨a, b, c, d⟩ := hseg
  simp only [spec_arrow_segment, spec_arrow_point_quarter, spec_arrow_point_half, a, b, c, d,
    DrawCmd.drawLine.injEq, and_true]
  refine ⟨⟨?_, ?_, ?_, ?_⟩, ⟨?_, ?_, ?_, ?_⟩⟩ <;> omega

/-- C11: the vector (100, 0) is the identity of the arrow transform: for an
anchor `(x, y)` (with `x`, `x+85`, `x+100`, `y`, `y-10`, `y+10` within `int`)
`draw_arrow(x, y, 100, 0)` emits (x,y)-(x+100,y), (x+100,y)-(x+85,y+10),
(x+100,y)-(x+85,y-10); at the anchor (0, 0) these are the unit shape itself. -/
theorem draw_arrow_unit_vector (x y : Int) (color : Nat)
    (hx : fitsInt x) (hx85 : fitsInt (x + 85)) (hx100 : fitsInt (x + 100))
    (hy : fitsInt y) (hym : fitsInt (y - 10)) (hyp : fitsInt (y + 10)) :
    draw_arrow x y 100 0 color =
      [DrawCmd.drawLine x y (x + 100) y color,
       DrawCmd.drawLine (x + 100) y (x + 85) (y + 10) color,
       DrawCmd.drawLine (x + 100) y (x + 85) (y - 10) color] ∧
    draw_arrow 0 0 100 0 color =
      [DrawCmd.drawLine 0 0 100 0 color, DrawCmd.drawLine 100 0 85 10 color,
       DrawCmd.drawLine 100 0 85 (-10) color] := by
  have hr : arrow_in_range x y 100 0 := by
    refine ⟨by decide, by decide, ?_⟩
    intro u hu
    simp only [unit_endpoints, List.mem_cons, List.mem_singleton, List.not_mem_nil,
      or_false] at hu
    rcases hu with rfl | rfl | rfl | rfl <;> simp [spec_arrow_point] <;>
      first | exact ⟨hx, hy⟩ | exact ⟨hx100, hy⟩ | exact ⟨hx85, hyp⟩ | exact ⟨hx85, hym⟩
  have t1 : Int.tdiv 10000 100 = 100 := by decide
  have t2 : Int.tdiv 8500 100 = 85 := by decide
  have t3 : Int.tdiv 1000 100 = 10 := by decide
  constructor
  · rw [draw_arrow_exact x y 100 0 color hr]
    simp [spec_arrow_segment, spec_arrow_point, t1, t2, t3]
    omega
  · rfl

/-- Witness of C11: the anchor (30, 40). -/
theorem draw_arrow_unit_vector_witness :
    draw_arrow 30 40 100 0 9 =
      [DrawCmd.drawLine 30 40 130 40 9, DrawCmd.drawLine 130 40 115 50 9,
       DrawCmd.drawLine 130 40 115 30 9] :=
  (draw_arrow_unit_vector 30 40 9 (by decide) (by decide) (by decide) (by decide)
    (by decide) (by decide)).1

/-- C12: when `100*dx`, `100*dy`, `x`, `y`, `x+dx` and `y+dy` are within
`int`, the first line emitted by `draw_arrow` runs from `(x, y)` to
`(x+dx, y+dy)`, whatever the signs of `dx` and `dy`, and the two head strokes
both start at the tip `(x+dx, y+dy)`. -/
theorem draw_arrow_shaft (x y dx dy : Int) (color : Nat)
    (hdx : fitsInt (100 * dx)) (hdy : fitsInt (100 * dy))
    (hx : fitsInt x) (hy : fitsInt y)
    (hxd : fitsInt (x + dx)) (hyd : fitsInt (y + dy)) :
    ∃ ex1 ey1 ex2 ey2 : Int,
      draw_arrow x y dx dy color =
        [DrawCmd.drawLine x y (x + dx) (y + dy) color,
         DrawCmd.drawLine (x + dx) (y + dy) ex1 ey1 color,
         DrawCmd.drawLine (x + dx) (y + dy) ex2 ey2 color] := by
  have z0 : fitsInt 0 := by decide
  have q0 : ∀ a b : Int, (0 * a - 0 * b).tdiv 100 = 0 := by
    intro a b
    simp
  have q0a : ∀ a b : Int, (0 * a + 0 * b).tdiv 100 = 0 := by
    intro a b
    simp
  have q1 : ∀ a b : Int, (100 * a - 0 * b).tdiv 100 = a := by
    intro a b
    simp [Int.mul_tdiv_cancel_left]
  have q1a : ∀ a b : Int, (100 * a + 0 * b).tdiv 100 = a := by
    intro a b
    simp [Int.mul_tdiv_cancel_left]
  have s0x : iadd x (idiv (isub (imul 0 dx) (imul 0 dy)) 100) = x := by
    rw [arrow_coord_sub x dx dy 0 0 (by simpa using z0) (by simpa using z0)
      (by simpa using z0) (by rw [q0]; simpa using hx), q0, add_zero]
  have s0y : iadd y (idiv (iadd (imul 0 dy) (imul 0 dx)) 100) = y := by
    rw [arrow_coord_add y dx dy 0 0 (by simpa using z0) (by simpa using z0)
      (by simpa using z0) (by rw [q0a]; simpa using hy), q0a, add_zero]
  have s1x : iadd x (idiv (isub (imul 100 dx) (imul 0 dy)) 100) = x + dx := by
    rw [arrow_coord_sub x dx dy 100 0 hdx (by simpa using z0)
      (by simpa using hdx) (by rw [q1]; exact hxd), q1]
  have s1y : iadd y (idiv (iadd (imul 100 dy) (imul 0 dx)) 100) = y + dy := by
    rw [arrow_coord_add y dx dy 100 0 hdy (by simpa using z0)
      (by simpa using hdy) (by rw [q1a]; exact hyd), q1a]
  refine ⟨iadd x (idiv (isub (imul 85 dx) (imul 10 dy)) 100),
    iadd y (idiv (iadd (imul 85 dy) (imul 10 dx)) 100),
    iadd x (idiv (isub (imul 85 dx) (imul (-10) dy)) 100),
    iadd y (idiv (iadd (imul 85 dy) (imul (-10) dx)) 100), ?_⟩
  rw [draw_arrow_unfold]
  simp only [draw_arrow_line, unit_startx, unit_starty, unit_endx, unit_endy,
    List.getD_cons_zero, List.getD_cons_succ]
  rw [s0x, s0y, s1x, s1y]

/-- Witness of C12: the vector (-7, 3) at the anchor (5, 5): the shaft runs
from (5, 5) to (-2, 8). -/
theorem draw_arrow_shaft_witness :
    ∃ ex1 ey1 ex2 ey2 : Int,
      draw_arrow 5 5 (-7) 3 9 =
        [DrawCmd.drawLine 5 5 (5 + -7) (5 + 3) 9,
         DrawCmd.drawLine (5 + -7) (5 + 3) ex1 ey1 9,
         DrawCmd.drawLine (5 + -7) (5 + 3) ex2 ey2 9] :=
  draw_arrow_shaft 5 5 (-7) 3 9 (by decide) (by decide) (by decide) (by decide)
    (by decide) (by decide)

/-- C13: for an anchor `(x, y)` of `int` coordinates, `draw_arrow` with
`dx = 0` and `dy = 0` emits three zero-length lines, each from `(x, y)` to
`(x, y)`; at the anchor (0, 0) all three are at the origin. -/
theorem draw_arrow_zero_vector (x y : Int) (color : Nat)
    (hx : fitsInt x) (hy : fitsInt y) :
    draw_arrow x y 0 0 color =
      [DrawCmd.drawLine x y x y color, DrawCmd.drawLine x y x y color,
       DrawCmd.drawLine x y x y color] ∧
    draw_arrow 0 0 0 0 color =
      [DrawCmd.drawLine 0 0 0 0 color, DrawCmd.drawLine 0 0 0 0 color,
       DrawCmd.drawLine 0 0 0 0 color] := by
  have hp : ∀ u : Int × Int, spec_arrow_point x y 0 0 u = (x, y) := by
    intro u
    simp [spec_arrow_point]
  have hr : arrow_in_range x y 0 0 := by
    refine ⟨by decide, by decide, ?_⟩
    intro u _
    rw [hp]
    exact ⟨hx, hy⟩
  constructor
  · rw [draw_arrow_exact x y 0 0 color hr]
    simp only [spec_arrow_segment, hp]
  · rfl

/-- Witness of C13: the anchor (30, 40). -/
theorem draw_arrow_zero_vector_witness :
    draw_arrow 30 40 0 0 9 =
      [DrawCmd.drawLine 30 40 30 40 9, DrawCmd.drawLine 30 40 30 40 9,
       DrawCmd.drawLine 30 40 30 40 9] :=
  (draw_arrow_zero_vector 30 40 9 (by decide) (by decide)).1

/-! ## Button::draw -/

theorem text_coord (x d : Int) (hd : fitsInt d) (hx : fitsInt (x + d.tdiv 2)) :
    iadd x (idiv d 2) = x + d.tdiv 2 := by
  unfold iadd
  rw [idiv_of_fits (by decide) hd, wrapInt_of_fits hx]

/-- C14: `Button::draw` emits, in order, `fillRect(x, y, dx, dy, c1)`,
`drawRect(x, y, dx, dy, c2)`, centre anchoring, text colour `c2`, font 2 and
`drawString(text, x + dx/2, y + dy/2)`, where `(c1, c2)` is
`(fgcolor, bgcolor)` when `selected` is true and `(bgcolor, fgcolor)` when it
is false (the text coordinates within `int`), and leaves the button unchanged;
a button constructed with the default arguments fills with white and draws
outline and text in black, with the text at `(x+10, y+10)`. -/
theorem draw_emits (b : Button) (hdx : fitsInt b.dx) (hdy : fitsInt b.dy)
    (hx : fitsInt (b.x + b.dx.tdiv 2)) (hy : fitsInt (b.y + b.dy.tdiv 2)) :
    (b.selected = true → b.draw.1 =
      [DrawCmd.fillRect b.x b.y b.dx b.dy b.fgcolor,
       DrawCmd.drawRect b.x b.y b.dx b.dy b.bgcolor,
       DrawCmd.setTextDatum MC_DATUM,
       DrawCmd.setTextColor b.bgcolor,
       DrawCmd.setTextFont 2,
       DrawCmd.drawString b.text (b.x + b.dx.tdiv 2) (b.y + b.dy.tdiv 2)]) ∧
    (b.selected = false → b.draw.1 =
      [DrawCmd.fillRect b.x b.y b.dx b.dy b.bgcolor,
       DrawCmd.drawRect b.x b.y b.dx b.dy b.fgcolor,
       DrawCmd.setTextDatum MC_DATUM,
       DrawCmd.setTextColor b.fgcolor,
       DrawCmd.setTextFont 2,
       DrawCmd.drawString b.text (b.x + b.dx.tdiv 2) (b.y + b.dy.tdiv 2)]) ∧
    b.draw.2 = b ∧
    (∀ (text : String) (x y : Int) (now : Nat), fitsInt (x + 10) → fitsInt (y + 10) →
      (Button.ctor_default text x y now).draw.1 =
        [DrawCmd.fillRect x y 20 20 TFT_WHITE,
         DrawCmd.drawRect x y 20 20 TFT_BLACK,
         DrawCmd.setTextDatum MC_DATUM,
         DrawCmd.setTextColor TFT_BLACK,
         DrawCmd.setTextFont 2,
         DrawCmd.drawString text (x + 10) (y + 10)]) := by
  refine ⟨?_, ?_, rfl, ?_⟩
  · intro hs
    simp only [Button.draw, hs, if_true]
    rw [text_coord b.x b.dx hdx hx, text_coord b.y b.dy hdy hy]
  · intro hs
    simp only [Button.draw, hs, Bool.false_eq_true, if_false]
    rw [text_coord b.x b.dx hdx hx, text_coord b.y b.dy hdy hy]
  · intro text x y now h10x h10y
    have t : Int.tdiv 20 2 = 10 := by decide
    simp only [Button.draw, Button.ctor_default, Button.ctor, if_true]
    rw [text_coord x 20 (by decide) (by rw [t]; exact h10x),
      text_coord y 20 (by decide) (by rw [t]; exact h10y), t]

/-- Witness of C14: an unselected 40×30 button at (10, 20), and the default
button at (10, 20). -/
theorem draw_emits_witness :
    (Button.mk 10 20 40 30 0 65535 1000 false "A").draw.1 =
      [DrawCmd.fillRect 10 20 40 30 0, DrawCmd.drawRect 10 20 40 30 65535,
       DrawCmd.setTextDatum MC_DATUM, DrawCmd.setTextColor 65535, DrawCmd.setTextFont 2,
       DrawCmd.drawString "A" (10 + Int.tdiv 40 2) (20 + Int.tdiv 30 2)] ∧
    (Button.ctor_default "A" 10 20 1000).draw.1 =
      [DrawCmd.fillRect 10 20 20 20 TFT_WHITE, DrawCmd.drawRect 10 20 20 20 TFT_BLACK,
       DrawCmd.setTextDatum MC_DATUM, DrawCmd.setTextColor TFT_BLACK, DrawCmd.setTextFont 2,
       DrawCmd.drawString "A" (10 + 10) (20 + 10)] :=
  ⟨(draw_emits (Button.mk 10 20 40 30 0 65535 1000 false "A") (by decide) (by decide)
      (by decide) (by decide)).2.1 rfl,
   (draw_emits (Button.mk 10 20 40 30 0 65535 1000 false "A") (by decide) (by decide)
      (by decide) (by decide)).2.2.2 "A" 10 20 1000 (by decide) (by decide)⟩

/-! ## Quarter turns of the arrow -/

/-- C15: when no `int` operation of `draw_arrow(x, y, dx, dy)` overflows and
its `i`-th line has endpoints `(x+p0, y+q0)` and `(x+p1, y+q1)`, then the
`i`-th line of `draw_arrow(x, y, -dy, dx)` has endpoints `(x-q0, y+p0)` and
`(x-q1, y+p1)`, and the `i`-th line of `draw_arrow(x, y, -dx, -dy)` has
endpoints `(x-p0, y-q0)` and `(x-p1, y-q1)` (each turned arrow being within
`int` range as well): the transform commutes with quarter turns exactly,
because the division truncates toward zero. -/
theorem draw_arrow_quarter_turn (x y dx dy : Int) (color : Nat) (i : Nat)
    (p0 q0 p1 q1 : Int) (h : arrow_in_range x y dx dy)
    (hseg : (draw_arrow x y dx dy color)[i]? =
      some (DrawCmd.drawLine (x + p0) (y + q0) (x + p1) (y + q1) color)) :
    (arrow_in_range x y (-dy) dx →
      (draw_arrow x y (-dy) dx color)[i]? =
        some (DrawCmd.drawLine (x - q0) (y + p0) (x - q1) (y + p1) color)) ∧
    (arrow_in_range x y (-dx) (-dy) →
      (draw_arrow x y (-dx) (-dy) color)[i]? =
        some (DrawCmd.drawLine (x - p0) (y - q0) (x - p1) (y - q1) color)) := by
  rw [draw_arrow_exact x y dx dy color h] at hseg
  constructor
  · intro hq
    rw [draw_arrow_exact x y (-dy) dx color hq]
    rcases i with _ | _ | _ | i
    · simp only [List.getElem?_cons_zero, Option.some.injEq] at hseg ⊢
      exact (spec_arrow_segment_turns x y dx dy color _ _ p0 q0 p1 q1 hseg).1
    · simp only [List.getElem?_cons_succ, List.getElem?_cons_zero, Option.some.injEq] at hseg ⊢
      exact (spec_arrow_segment_turns x y dx dy color _ _ p0 q0 p1 q1 hseg).1
    · simp only [List.getElem?_cons_succ, List.getElem?_cons_zero, Option.some.injEq] at hseg ⊢
      exact (spec_arrow_segment_turns x y dx dy color _ _ p0 q0 p1 q1 hseg).1
    · simp at hseg
  · intro hh
    rw [draw_arrow_exact x y (-dx) (-dy) color hh]
    rcases i with _ | _ | _ | i
    · simp only [List.getElem?_cons_zero, Option.some.injEq] at hseg ⊢
      exact (spec_arrow_segment_turns x y dx dy color _ _ p0 q0 p1 q1 hseg).2
    · simp only [List.getElem?_cons_succ, List.getElem?_cons_zero, Option.some.injEq] at hseg ⊢
      exact (spec_arrow_segment_turns x y dx dy color _ _ p0 q0 p1 q1 hseg).2
    · simp only [List.getElem?_cons_succ, List.getElem?_cons_zero, Option.some.injEq] at hseg ⊢
      exact (spec_arrow_segment_turns x y dx dy color _ _ p0 q0 p1 q1 hseg).2
    · simp at hseg

/-- Witness of C15: the vector (-7, 3) at the anchor (5, 5), line 1, from
(5-7, 5+3) to (5-6, 5+1); turned by a quarter it runs from (5-3, 5-7) to
(5-1, 5-6), and reflected from (5+7, 5-3) to (5+6, 5-1). -/
theorem draw_arrow_quarter_turn_witness :
    (draw_arrow 5 5 (-3) (-7) 9)[1]? =
      some (DrawCmd.drawLine (5 - 3) (5 + -7) (5 - 1) (5 + -6) 9) ∧
    (draw_arrow 5 5 (- -7) (-3) 9)[1]? =
      some (DrawCmd.drawLine (5 - -7) (5 - 3) (5 - -6) (5 - 1) 9) :=
  ⟨(draw_arrow_quarter_turn 5 5 (-7) 3 9 1 (-7) 3 (-6) 1 (by decide) (by decide)).1
      (by decide),
   (draw_arrow_quarter_turn 5 5 (-7) 3 9 1 (-7) 3 (-6) 1 (by decide) (by decide)).2
      (by decide)⟩

/-! ## Buttons without area -/

/-- C16: a button with `dx ≤ 0` or `dy ≤ 0` (and `x+dx`, `y+dy` within `int`)
has an empty hit region: for every touch point and every clock value `touched`
returns false and the button, `last_touch` included, is unchanged. -/
theorem touched_empty_region (b : Button) (touch_x touch_y : Int) (now now2 : Nat)
    (hx : fitsInt (b.x + b.dx)) (hy : fitsInt (b.y + b.dy))
    (hsize : b.dx ≤ 0 ∨ b.dy ≤ 0) :
    (b.touched touch_x touch_y now now2).1 = false ∧
    (b.touched touch_x touch_y now now2).2 = b ∧
    (b.touched touch_x touch_y now now2).2.last_touch = b.last_touch := by
  have hf : (b.touched touch_x touch_y now now2).1 = false := by
    rw [Bool.eq_false_iff]
    intro h
    rw [touched_fst] at h
    unfold iadd at h
    rw [wrapInt_of_fits hx, wrapInt_of_fits hy] at h
    obtain ⟨h1, h2, h3, h4, -⟩ := h
    rcases hsize with hs | hs <;> omega
  have hb := touched_snd_of_false b touch_x touch_y now now2 hf
  exact ⟨hf, hb, by rw [hb]⟩

/-- Witness of C16: a button of width 0 touched at its corner. -/
theorem touched_empty_region_witness :
    ((Button.mk 10 20 0 30 0 65535 1000 true "A").touched 10 25 5000 5000).1 = false ∧
    ((Button.mk 10 20 0 30 0 65535 1000 true "A").touched 10 25 5000 5000).2 =
      Button.mk 10 20 0 30 0 65535 1000 true "A" ∧
    ((Button.mk 10 20 0 30 0 65535 1000 true "A").touched 10 25 5000 5000).2.last_touch =
      1000 :=
  touched_empty_region (Button.mk 10 20 0 30 0 65535 1000 true "A") 10 25 5000 5000
    (by decide) (by decide) (by decide)

end Fieldcam
